import Mathlib

/-!
Verification development for the skill-span tracking core of the
skill-composer repository.

The embedding models the `skill_span` and `life_event` tables of
`db/connection.py` as in-memory lists, and the operations of
`hooks/posttool/phases/step_logger.py` (`_get_or_create_span`,
`_suspend_current_span`), `hooks/pretool/phases/subagent_step_tracker.py`
(the delegated-step append), `hooks/session_end/phases/__init__.py`
(`close_active_skill_session`) and `hooks/pretool/phases/step_gate.py`
(`_get_span_steps`, `check`) as pure state transformers over a `Store`.

Modelling conventions:
- `span_id` (a UUID prefix in the source) is modelled as a `Nat` drawn
  freshly from a store clock; the only property of a UUID the source
  relies on is uniqueness, which the clock provides.
- `started_at`, `suspended_at`, `completed_at` timestamps are `Nat`
  values taken from the same clock; the clock advances on row creation,
  so `ORDER BY started_at DESC LIMIT 1` becomes a deterministic
  maximum over distinct keys on reachable stores.
- `session_id = NULL` and the Python falsy-session call convention are
  both modelled with `Option String`.
- Every operation runs inside one exclusive SQLite transaction in the
  source; each Lean function is the atomic effect of that transaction.
  A storage failure rolls the transaction back and the caller swallows
  the exception (fail open), which is modelled by returning the store
  unchanged (and `none` where the source returns `None`).
-/

inductive Status where
  | active
  | suspended
  | completed
deriving DecidableEq, Repr

/-- One row of the `skill_span` table (schema in `db/connection.py`). -/
structure Span where
  span_id : Nat
  skill : String
  parent_span_id : Option Nat
  status : Status
  first_step : String
  last_step : String
  steps : List String
  session_id : Option String
  started_at : Nat
  completed_at : Option Nat
  suspended_at : Option Nat
deriving DecidableEq, Repr

/-- One row of the `life_event` table, reduced to the fields the
modelled operations write. -/
structure LifeEvent where
  skill : String
  phase : String
  event_type : String
deriving DecidableEq, Repr

/-- The durable store: the two tables plus the clock that hands out
fresh identifiers and timestamps. -/
structure Store where
  spans : List Span
  events : List LifeEvent
  clock : Nat
deriving DecidableEq, Repr

/-- The session filter built by `_get_or_create_span`: present callers
restrict rows to their `session_id`, absent callers apply no filter. -/
def sessionMatch (sid : Option String) (sp : Span) : Bool :=
  match sid with
  | none => true
  | some x => decide (sp.session_id = some x)

/-- Row filter of branch 1 of `_get_or_create_span` (and of the gate,
the delegation tracker and `_suspend_current_span`):
`skill = ? AND status = 'active'` plus the session filter. -/
def activeMatch (skill : String) (sid : Option String) (sp : Span) : Bool :=
  decide (sp.skill = skill) && decide (sp.status = Status.active) && sessionMatch sid sp

/-- Row filter of branch 2 of `_get_or_create_span`:
`skill = ? AND status = 'suspended'` plus the session filter. -/
def suspendedMatch (skill : String) (sid : Option String) (sp : Span) : Bool :=
  decide (sp.skill = skill) && decide (sp.status = Status.suspended) && sessionMatch sid sp

/-- Row filter of the ancestry query in branch 3 of
`_get_or_create_span`: `skill != ? AND status IN (active, suspended)`
plus the session filter. -/
def parentMatch (skill : String) (sid : Option String) (sp : Span) : Bool :=
  decide (¬ sp.skill = skill) &&
    (decide (sp.status = Status.active) || decide (sp.status = Status.suspended)) &&
    sessionMatch sid sp

/-- Row filter of `close_active_skill_session`:
`status IN (active, suspended) AND session_id = ?`. -/
def openSessionMatch (sid : String) (sp : Span) : Bool :=
  (decide (sp.status = Status.active) || decide (sp.status = Status.suspended)) &&
    decide (sp.session_id = some sid)

/-- The row of maximal `started_at` in a list (ties keep the earlier
row; on reachable stores `started_at` keys are distinct). -/
def maxStarted : List Span → Option Span
  | [] => none
  | sp :: rest =>
    match maxStarted rest with
    | none => some sp
    | some m => if sp.started_at < m.started_at then some m else some sp

/-- `SELECT ... WHERE p ORDER BY started_at DESC LIMIT 1`. -/
def latestSpan (p : Span → Bool) (rows : List Span) : Option Span :=
  maxStarted (rows.filter p)

/-- `UPDATE skill_span SET ... WHERE span_id = ?`. -/
def updateById (id : Nat) (f : Span → Span) (spans : List Span) : List Span :=
  spans.map fun sp => if sp.span_id = id then f sp else sp

/-- The step append performed by branch 1 of `_get_or_create_span` and
by the delegation tracker: `last_step = step, steps = steps + [step]`.
The source appends unconditionally in `_get_or_create_span` (no
adjacent-duplicate check there). -/
def appendStep (s : String) (sp : Span) : Span :=
  { sp with last_step := s, steps := sp.steps ++ [s] }

/-- The row INSERTed by branch 3 of `_get_or_create_span`: a fresh
active span whose parent is the most recent non-completed span of a
different skill in scope and whose first step is the step argument or
the `SKILL` sentinel. -/
def newSpanFor (skill : String) (step : Option String) (session_id : Option String)
    (st : Store) : Span :=
  { span_id := st.clock, skill := skill,
    parent_span_id := (latestSpan (parentMatch skill session_id) st.spans).map Span.span_id,
    status := Status.active, first_step := step.getD "SKILL",
    last_step := step.getD "SKILL", steps := [step.getD "SKILL"],
    session_id := session_id, started_at := st.clock,
    completed_at := none, suspended_at := none }

/-- `_get_or_create_span` from `step_logger.py`: the three-branch
decision (active: append; suspended: resume; else: create) run inside
one exclusive transaction. Returns the span id (or `none` on the error
path, where the transaction rolls back) and the new store. -/
def getOrCreateSpan (skill : String) (step : Option String) (session_id : Option String)
    (st : Store) : Option Nat × Store :=
  match latestSpan (activeMatch skill session_id) st.spans with
  | some row =>
    match step with
    | some s =>
      (some row.span_id,
       { st with spans := updateById row.span_id (appendStep s) st.spans })
    | none => (some row.span_id, st)
  | none =>
    match latestSpan (suspendedMatch skill session_id) st.spans with
    | some row =>
      match step, row.steps.getLast? with
      | some s, _ =>
        (some row.span_id,
         { st with spans := updateById row.span_id (fun sp =>
             { sp with status := Status.active, suspended_at := none,
                       last_step := s, steps := row.steps ++ [s] }) st.spans })
      | none, some l =>
        (some row.span_id,
         { st with spans := updateById row.span_id (fun sp =>
             { sp with status := Status.active, suspended_at := none,
                       last_step := l, steps := row.steps }) st.spans })
      | none, none =>
        -- `steps[-1]` on an empty list raises; the exception handler
        -- rolls back and returns None (fail open).
        (none, st)
    | none =>
      (some st.clock,
       { st with spans := st.spans ++ [newSpanFor skill step session_id st],
                 clock := st.clock + 1 })

/-- `_suspend_current_span` from `step_logger.py`: every active row in
scope becomes suspended and is stamped with `suspended_at`. -/
def suspendCurrentSpan (skill : String) (sid : Option String) (st : Store) : Store :=
  { st with spans := st.spans.map fun sp =>
      if activeMatch skill sid sp then
        { sp with status := Status.suspended, suspended_at := some st.clock }
      else sp }

/-- The delegated-step append of `subagent_step_tracker.check` for one
matched `(skill, step)` pair: look up only the active span in scope;
append and emit a delegation event unless the step equals the last
recorded step; silently do nothing when no active span exists. -/
def recordDelegatedStep (skill step : String) (sid : Option String) (st : Store) : Store :=
  match latestSpan (activeMatch skill sid) st.spans with
  | none => st
  | some row =>
    if row.steps.getLast? = some step then st
    else
      { st with
        spans := updateById row.span_id (appendStep step) st.spans,
        events := st.events ++ [{ skill := skill, phase := step,
                                  event_type := "subagent_step_delegate" }] }

/-- `close_active_skill_session` from `session_end/phases/__init__.py`:
with a session id, every active or suspended row of that session is
completed and stamped; a session-end event is emitted for the latest
such row. Without a session id the call returns at once. -/
def closeActiveSkillSession (session_id : Option String) (st : Store) : Store :=
  match session_id with
  | none => st
  | some sid =>
    let events2 :=
      match latestSpan (openSessionMatch sid) st.spans with
      | some row => st.events ++ [{ skill := row.skill, phase := "session_end",
                                    event_type := "session_end" }]
      | none => st.events
    { st with
      events := events2,
      spans := st.spans.map fun sp =>
        if openSessionMatch sid sp then
          { sp with status := Status.completed, completed_at := some st.clock }
        else sp }

/-- `_get_span_steps` from `step_gate.py`: the visited-step list of the
active span in scope; `none` both when no active span exists and when
the storage layer fails (`dbError`). -/
def getSpanSteps (skill : String) (sid : Option String) (dbError : Bool)
    (st : Store) : Option (List String) :=
  if dbError then none
  else
    match latestSpan (activeMatch skill sid) st.spans with
    | none => none
    | some row => some row.steps

/-- `ROOT_INPUTS` from `step_gate.py`. -/
def ROOT_INPUTS : List String := ["user-request"]

/-- The per-skill contract maps built by `_build_contracts`:
producer-of-artifact, consumed-by-step, and the optional-step set. -/
structure Contract where
  produces : List (String × String)
  consumes : List (String × List String)
  optional_steps : List String
deriving DecidableEq, Repr

/-- The unsatisfied-dependency scan of `step_gate.check`: for each
consumed artifact that is not a root input and has a declared producer
that is neither visited nor optional, record the (artifact, producer)
pair. -/
def missingDeps (c : Contract) (step_consumes visited : List String) :
    List (String × String) :=
  step_consumes.filterMap fun a =>
    if a ∈ ROOT_INPUTS then none
    else
      match c.produces.lookup a with
      | none => none
      | some p =>
        if p ∈ visited then none
        else if p ∈ c.optional_steps then none
        else some (a, p)

/-- A single-quote character, used by the reason strings below. -/
def quoteMark : String := String.singleton (Char.ofNat 39)

/-- One entry of the block reason of `step_gate.check`. -/
def missingEntry (ap : String × String) : String :=
  quoteMark ++ ap.1 ++ quoteMark ++ " (produced by " ++ quoteMark ++ ap.2 ++ quoteMark ++ ")"

/-- The block reason of `step_gate.check`. -/
def reasonString (step : String) (missing : List (String × String)) : String :=
  "Step " ++ quoteMark ++ step ++ quoteMark ++ " requires " ++
    String.intercalate ", " (missing.map missingEntry) ++ ". Complete those steps first."

/-- `step_gate.check` after the path match: `none` allows, `some r`
blocks with reason `r`. -/
def stepGateCheck (c : Contract) (skill step : String) (sid : Option String)
    (dbError : Bool) (st : Store) : Option String :=
  if (c.consumes.lookup step).getD [] = [] then none
  else if ((c.consumes.lookup step).getD []).all (fun a => decide (a ∈ ROOT_INPUTS)) then none
  else
    match getSpanSteps skill sid dbError st with
    | none => none
    | some visited =>
      if missingDeps c ((c.consumes.lookup step).getD []) visited = [] then none
      else some (reasonString step (missingDeps c ((c.consumes.lookup step).getD []) visited))

/-- The gate as a store transformer: `check` only issues SELECT
statements, so the store component of the result is the input store. -/
def stepGateCheckRun (c : Contract) (skill step : String) (sid : Option String)
    (dbError : Bool) (st : Store) : Option String × Store :=
  (stepGateCheck c skill step sid dbError st, st)

/-- Sequential execution, in lock-acquisition order, of a list of
`_get_or_create_span` calls each passing a step argument: the list of
returned ids and the final store. -/
def runCallsResults (skill : String) (sid : Option String) (args : List String)
    (st : Store) : List (Option Nat) × Store :=
  match args with
  | [] => ([], st)
  | a :: rest =>
    let r := getOrCreateSpan skill (some a) sid st
    let next := runCallsResults skill sid rest r.2
    (r.1 :: next.1, next.2)

/-- Repeated `appendStep`, the cumulative effect of a run of branch-1
appends on one span. -/
def appendFold (sp : Span) (args : List String) : Span :=
  args.foldl (fun s a => appendStep a s) sp

/-- Adjacent-duplicate suppression as the spec words it: an entry equal
to the immediately preceding recorded entry is dropped, non-adjacent
repeats are kept. Used only to compare the spec against the source. -/
def specDedupAdjacent (l : List String) : List String :=
  l.foldl (fun acc s => if acc.getLast? = some s then acc else acc ++ [s]) []

/-- Reachable-store well-formedness: `started_at` keys are distinct,
every identifier equals its creation timestamp, and the clock bounds
them all, so freshly created rows never collide with existing ones. -/
def WF (st : Store) : Prop :=
  (st.spans.map Span.started_at).Nodup ∧
  ∀ sp ∈ st.spans, sp.span_id = sp.started_at ∧ sp.started_at < st.clock

instance (st : Store) : Decidable (WF st) := by
  unfold WF; exact inferInstance

/-- Two rows that would violate the one-active-span-per-scope
invariant: both active with the same skill and session. -/
def ActiveConflict (a b : Span) : Prop :=
  a.status = Status.active ∧ b.status = Status.active ∧
    a.skill = b.skill ∧ a.session_id = b.session_id

instance (a b : Span) : Decidable (ActiveConflict a b) := by
  unfold ActiveConflict; exact inferInstance

/-- The spanner invariant: at most one active span per
`(skill, session_id)` pair. -/
def AtMostOneActive (st : Store) : Prop :=
  st.spans.Pairwise fun a b => ¬ ActiveConflict a b

/-! ### Helper lemmas about the store operations -/

theorem maxStarted_eq_none {l : List Span} : maxStarted l = none ↔ l = [] := by
  cases l with
  | nil => simp [maxStarted]
  | cons a rest =>
    simp only [maxStarted]
    cases h : maxStarted rest with
    | none => simp
    | some m => by_cases hlt : a.started_at < m.started_at <;> simp [hlt]

theorem maxStarted_mem {l : List Span} {r : Span} (h : maxStarted l = some r) : r ∈ l := by
  induction l with
  | nil => simp [maxStarted] at h
  | cons a rest ih =>
    simp only [maxStarted] at h
    cases hm : maxStarted rest with
    | none =>
      rw [hm] at h
      simp at h
      simp [h]
    | some m =>
      rw [hm] at h
      by_cases hlt : a.started_at < m.started_at
      · simp [hlt] at h
        subst h
        exact List.mem_cons_of_mem a (ih hm)
      · simp [hlt] at h
        simp [h]

theorem maxStarted_le {l : List Span} {r : Span} (h : maxStarted l = some r) :
    ∀ x ∈ l, x.started_at ≤ r.started_at := by
  induction l generalizing r with
  | nil => simp [maxStarted] at h
  | cons a rest ih =>
    intro x hx
    simp only [maxStarted] at h
    cases hm : maxStarted rest with
    | none =>
      rw [hm] at h
      have : rest = [] := maxStarted_eq_none.mp hm
      subst this
      simp at hx h
      simp [hx, h]
    | some m =>
      rw [hm] at h
      by_cases hlt : a.started_at < m.started_at
      · simp [hlt] at h
        subst h
        rcases List.mem_cons.mp hx with rfl | hx2
        · exact Nat.le_of_lt hlt
        · exact ih hm x hx2
      · simp [hlt] at h
        subst h
        rcases List.mem_cons.mp hx with rfl | hx2
        · exact Nat.le_refl _
        · exact Nat.le_trans (ih hm x hx2) (Nat.le_of_not_lt hlt)

theorem latestSpan_eq_none {p : Span → Bool} {l : List Span} :
    latestSpan p l = none ↔ l.filter p = [] := by
  simp [latestSpan, maxStarted_eq_none]

theorem latestSpan_mem {p : Span → Bool} {l : List Span} {r : Span}
    (h : latestSpan p l = some r) : r ∈ l ∧ p r = true := by
  have := maxStarted_mem h
  exact ⟨List.mem_of_mem_filter this, List.of_mem_filter this⟩

theorem latestSpan_le {p : Span → Bool} {l : List Span} {r : Span}
    (h : latestSpan p l = some r) : ∀ x ∈ l, p x = true → x.started_at ≤ r.started_at := by
  intro x hx hpx
  exact maxStarted_le h x (List.mem_filter.mpr ⟨hx, hpx⟩)

theorem filter_decomp {p : Span → Bool} {u v : List Span} {a : Span}
    (hu : ∀ x ∈ u, p x = false) (hv : ∀ x ∈ v, p x = false) (ha : p a = true) :
    (u ++ a :: v).filter p = [a] := by
  rw [List.filter_append, List.filter_cons]
  have h1 : u.filter p = [] := by
    rw [List.filter_eq_nil_iff]
    intro x hx
    simp [hu x hx]
  have h2 : v.filter p = [] := by
    rw [List.filter_eq_nil_iff]
    intro x hx
    simp [hv x hx]
  simp [h1, h2, ha]

theorem latestSpan_decomp {p : Span → Bool} {u v : List Span} {a : Span}
    (hu : ∀ x ∈ u, p x = false) (hv : ∀ x ∈ v, p x = false) (ha : p a = true) :
    latestSpan p (u ++ a :: v) = some a := by
  rw [latestSpan, filter_decomp hu hv ha]
  rfl

theorem map_id_on {l : List Span} {g : Span → Span} (h : ∀ x ∈ l, g x = x) :
    l.map g = l := by
  induction l with
  | nil => rfl
  | cons a rest ih =>
    simp only [List.map_cons]
    rw [h a (by simp), ih (fun x hx => h x (by simp [hx]))]

theorem updateById_decomp {u v : List Span} {a : Span} {id : Nat} {f : Span → Span}
    (ha : a.span_id = id) (hu : ∀ x ∈ u, x.span_id ≠ id) (hv : ∀ x ∈ v, x.span_id ≠ id) :
    updateById id f (u ++ a :: v) = u ++ f a :: v := by
  unfold updateById
  rw [List.map_append, List.map_cons]
  rw [map_id_on (fun x hx => by simp [hu x hx]),
      map_id_on (fun x hx => by simp [hv x hx])]
  simp [ha]

theorem wf_ids_decomp {st : Store} {u v : List Span} {a : Span}
    (hwf : WF st) (hdec : st.spans = u ++ a :: v) :
    (∀ x ∈ u, x.span_id ≠ a.span_id) ∧ (∀ x ∈ v, x.span_id ≠ a.span_id) := by
  obtain ⟨hnd, hpt⟩ := hwf
  rw [hdec] at hnd hpt
  rw [List.map_append, List.map_cons] at hnd
  have hdisj := (List.nodup_append.mp hnd).2.2
  have hnc := (List.nodup_append.mp hnd).2.1
  have hAnotinV : a.started_at ∉ v.map Span.started_at := (List.nodup_cons.mp hnc).1
  have hAnotinU : a.started_at ∉ u.map Span.started_at := by
    intro hmem
    exact hdisj hmem (by simp)
  constructor
  · intro x hx heq
    apply hAnotinU
    have hxid := (hpt x (by simp [hx])).1
    have haid := (hpt a (by simp)).1
    rw [List.mem_map]
    exact ⟨x, hx, by rw [← hxid, heq, haid]⟩
  · intro x hx heq
    apply hAnotinV
    have hxid := (hpt x (by simp [hx])).1
    have haid := (hpt a (by simp)).1
    rw [List.mem_map]
    exact ⟨x, hx, by rw [← hxid, heq, haid]⟩

theorem wf_mem_inj {st : Store} {a b : Span} (hwf : WF st)
    (ha : a ∈ st.spans) (hb : b ∈ st.spans) (hid : a.span_id = b.span_id) : a = b := by
  obtain ⟨u, v, hdec⟩ := List.append_of_mem ha
  obtain ⟨h1, h2⟩ := wf_ids_decomp hwf hdec
  rw [hdec] at hb
  rcases List.mem_append.mp hb with hbu | hbc
  · exact absurd hid.symm (h1 b hbu)
  · rcases List.mem_cons.mp hbc with rfl | hbv
    · rfl
    · exact absurd hid.symm (h2 b hbv)

theorem wf_id_lt_clock {st : Store} {a : Span} (hwf : WF st) (ha : a ∈ st.spans) :
    a.span_id < st.clock := by
  have := hwf.2 a ha
  omega

theorem appendFold_cons (sp : Span) (a : String) (rest : List String) :
    appendFold sp (a :: rest) = appendFold (appendStep a sp) rest := rfl

theorem appendFold_steps (sp : Span) (args : List String) :
    (appendFold sp args).steps = sp.steps ++ args := by
  induction args generalizing sp with
  | nil => simp [appendFold]
  | cons a rest ih =>
    rw [appendFold_cons, ih]
    simp [appendStep]

theorem appendFold_span_id (sp : Span) (args : List String) :
    (appendFold sp args).span_id = sp.span_id := by
  induction args generalizing sp with
  | nil => simp [appendFold]
  | cons a rest ih =>
    rw [appendFold_cons, ih]
    simp [appendStep]

theorem activeMatch_appendStep (skill : String) (sid : Option String) (a : String) (sp : Span) :
    activeMatch skill sid (appendStep a sp) = activeMatch skill sid sp := by
  cases sid <;> simp [activeMatch, appendStep, sessionMatch]

theorem runCalls_append (skill : String) (sid : Option String) (args : List String) :
    ∀ (st : Store) (u v : List Span) (sp : Span),
      st.spans = u ++ sp :: v →
      activeMatch skill sid sp = true →
      (∀ x ∈ u, activeMatch skill sid x = false) →
      (∀ x ∈ v, activeMatch skill sid x = false) →
      (∀ x ∈ u, x.span_id ≠ sp.span_id) →
      (∀ x ∈ v, x.span_id ≠ sp.span_id) →
      runCallsResults skill sid args st =
        (args.map (fun _ => some sp.span_id),
         { st with spans := u ++ appendFold sp args :: v }) := by
  induction args with
  | nil =>
    intro st u v sp hdec _ _ _ _ _
    simp only [runCallsResults, appendFold, List.foldl_nil, List.map_nil]
    cases st
    simp_all
  | cons a rest ih =>
    intro st u v sp hdec hact hu hv huid hvid
    have hlatest : latestSpan (activeMatch skill sid) st.spans = some sp := by
      rw [hdec]
      exact latestSpan_decomp hu hv hact
    have hcall : getOrCreateSpan skill (some a) sid st =
        (some sp.span_id,
         { st with spans := updateById sp.span_id (appendStep a) st.spans }) := by
      unfold getOrCreateSpan
      rw [hlatest]
    have hupd : updateById sp.span_id (appendStep a) st.spans = u ++ appendStep a sp :: v := by
      rw [hdec]
      exact updateById_decomp rfl huid hvid
    have hrec := ih { st with spans := u ++ appendStep a sp :: v } u v (appendStep a sp)
      rfl
      (by rw [activeMatch_appendStep]; exact hact)
      hu hv
      (by intro x hx; simp only [appendStep]; exact huid x hx)
      (by intro x hx; simp only [appendStep]; exact hvid x hx)
    simp only [runCallsResults, hcall, hupd, hrec, appendFold_cons, List.map_cons]
    simp [appendStep]

/-! ### C1 -/

/-- C1, counterexample: the claim says a step argument equal to the last
recorded step is not appended again, but `_get_or_create_span` appends
unconditionally in its active branch. Two calls with the same
`(procedure, session_id)` and the same step `x` on an empty store leave
`steps = [x, x]`, not the adjacent-duplicate-suppressed `[x]`. -/
theorem claim_C1_counterexample :
    getSpanSteps "a" (some "s") false
        (runCallsResults "a" (some "s") ["x", "x"] ⟨[], [], 0⟩).2 = some ["x", "x"] ∧
    specDedupAdjacent ["x", "x"] = ["x"] ∧
    ¬ getSpanSteps "a" (some "s") false
        (runCallsResults "a" (some "s") ["x", "x"] ⟨[], [], 0⟩).2 =
      some (specDedupAdjacent ["x", "x"]) := by
  decide

/-- C1, amended: for every sequence of `get_or_create_span` calls with
the same `(procedure, session_id)` and no intervening suspend, every
call returns the same span id as the first, and the steps sequence of
the span equals the full ordered list of step arguments passed,
adjacent duplicates included (no suppression happens here). -/
theorem claim_C1_theorem (skill a0 : String) (args : List String) (sid : Option String)
    (st : Store)
    (hwf : WF st)
    (hact : st.spans.filter (activeMatch skill sid) = [])
    (hsus : st.spans.filter (suspendedMatch skill sid) = []) :
    (runCallsResults skill sid (a0 :: args) st).1 =
      (a0 :: args).map (fun _ => some st.clock) ∧
    ∃ sp, (runCallsResults skill sid (a0 :: args) st).2.spans = st.spans ++ [sp] ∧
      sp.span_id = st.clock ∧ sp.steps = a0 :: args := by
  have hact2 : latestSpan (activeMatch skill sid) st.spans = none :=
    latestSpan_eq_none.mpr hact
  have hsus2 : latestSpan (suspendedMatch skill sid) st.spans = none :=
    latestSpan_eq_none.mpr hsus
  set N : Span := newSpanFor skill (some a0) sid st with hN
  have hcall : getOrCreateSpan skill (some a0) sid st =
      (some st.clock, { st with spans := st.spans ++ [N], clock := st.clock + 1 }) := by
    unfold getOrCreateSpan
    rw [hact2, hsus2]
  have hNact : activeMatch skill sid N = true := by
    cases sid <;> simp [activeMatch, sessionMatch, hN, newSpanFor]
  have hall : ∀ x ∈ st.spans, activeMatch skill sid x = false := by
    intro x hx
    have := List.filter_eq_nil_iff.mp hact x hx
    simpa using this
  have hids : ∀ x ∈ st.spans, x.span_id ≠ N.span_id := by
    intro x hx
    have := wf_id_lt_clock hwf hx
    simp only [hN, newSpanFor]
    omega
  have hrun := runCalls_append skill sid args
      { st with spans := st.spans ++ [N], clock := st.clock + 1 }
      st.spans [] N (by simp) hNact hall (by simp) hids (by simp)
  constructor
  · simp only [runCallsResults, hcall, hrun, List.map_cons]
    simp [hN, newSpanFor]
  · refine ⟨appendFold N args, ?_, ?_, ?_⟩
    · simp only [runCallsResults, hcall, hrun]
    · rw [appendFold_span_id]
      simp [hN, newSpanFor]
    · rw [appendFold_steps]
      simp [hN, newSpanFor]

/-- C1, witness for the amended theorem at a concrete input. -/
theorem claim_C1_witness :
    WF ⟨[], [], 0⟩ ∧
    (⟨[], [], 0⟩ : Store).spans.filter (activeMatch "a" (some "s")) = [] ∧
    (⟨[], [], 0⟩ : Store).spans.filter (suspendedMatch "a" (some "s")) = [] ∧
    ((runCallsResults "a" (some "s") ("x" :: ["y"]) ⟨[], [], 0⟩).1 =
      ("x" :: ["y"]).map (fun _ => some (⟨[], [], 0⟩ : Store).clock) ∧
     ∃ sp, (runCallsResults "a" (some "s") ("x" :: ["y"]) ⟨[], [], 0⟩).2.spans =
        (⟨[], [], 0⟩ : Store).spans ++ [sp] ∧
       sp.span_id = (⟨[], [], 0⟩ : Store).clock ∧ sp.steps = "x" :: ["y"]) :=
  ⟨by decide, by decide, by decide,
   claim_C1_theorem "a" "x" ["y"] (some "s") ⟨[], [], 0⟩ (by decide) (by decide) (by decide)⟩

/-! ### C9 -/

/-- C9: N concurrent `get_or_create_span` calls against the same
`(procedure, session_id)` are serialized by the exclusive transaction;
their effect is the sequential composition in lock-acquisition order,
modelled here by `runCallsResults`. Starting from a store whose only
active span in scope holds one initial entry, N calls with pairwise
distinct step arguments leave exactly N+1 entries: the initial entry
followed by one entry per call in lock-acquisition order, with no lost
updates and no adjacent duplicates. -/
theorem claim_C9_theorem (skill e0 : String) (args : List String) (sid : Option String)
    (st : Store) (u v : List Span) (sp : Span)
    (hwf : WF st)
    (hdec : st.spans = u ++ sp :: v)
    (hact : activeMatch skill sid sp = true)
    (hsteps : sp.steps = [e0])
    (hu : ∀ x ∈ u, activeMatch skill sid x = false)
    (hv : ∀ x ∈ v, activeMatch skill sid x = false)
    (hnd : (e0 :: args).Nodup) :
    (runCallsResults skill sid args st).1 = args.map (fun _ => some sp.span_id) ∧
    ∃ sp2, (runCallsResults skill sid args st).2.spans = u ++ sp2 :: v ∧
      sp2.span_id = sp.span_id ∧
      sp2.steps = e0 :: args ∧
      sp2.steps.length = args.length + 1 ∧
      sp2.steps.Nodup ∧ List.Chain' (fun a b => a ≠ b) sp2.steps := by
  obtain ⟨huid, hvid⟩ := wf_ids_decomp hwf hdec
  have hrun := runCalls_append skill sid args st u v sp hdec hact hu hv huid hvid
  constructor
  · rw [hrun]
  · refine ⟨appendFold sp args, ?_, appendFold_span_id sp args, ?_, ?_, ?_, ?_⟩
    · rw [hrun]
    · rw [appendFold_steps, hsteps]
      rfl
    · rw [appendFold_steps, hsteps]
      simp
    · rw [appendFold_steps, hsteps]
      simpa using hnd
    · rw [appendFold_steps, hsteps]
      have : ([e0] ++ args : List String) = e0 :: args := rfl
      rw [this]
      exact List.Pairwise.chain' hnd

/-- C9, witness at a concrete input. -/
theorem claim_C9_witness :
    WF ⟨[⟨0, "a", none, Status.active, "s0", "s0", ["s0"], some "s", 0, none, none⟩], [], 1⟩ ∧
    (⟨[⟨0, "a", none, Status.active, "s0", "s0", ["s0"], some "s", 0, none, none⟩], [], 1⟩ :
        Store).spans =
      [] ++ ⟨0, "a", none, Status.active, "s0", "s0", ["s0"], some "s", 0, none, none⟩ :: [] ∧
    activeMatch "a" (some "s")
      ⟨0, "a", none, Status.active, "s0", "s0", ["s0"], some "s", 0, none, none⟩ = true ∧
    (["s0", "t1", "t2"] : List String).Nodup ∧
    ((runCallsResults "a" (some "s") ["t1", "t2"]
        ⟨[⟨0, "a", none, Status.active, "s0", "s0", ["s0"], some "s", 0, none, none⟩],
         [], 1⟩).1 =
      (["t1", "t2"] : List String).map (fun _ => some 0) ∧
     ∃ sp2, (runCallsResults "a" (some "s") ["t1", "t2"]
        ⟨[⟨0, "a", none, Status.active, "s0", "s0", ["s0"], some "s", 0, none, none⟩],
         [], 1⟩).2.spans = [] ++ sp2 :: [] ∧
       sp2.span_id = 0 ∧ sp2.steps = ["s0", "t1", "t2"] ∧
       sp2.steps.length = 2 + 1 ∧ sp2.steps.Nodup ∧
       List.Chain' (fun a b => a ≠ b) sp2.steps) :=
  ⟨by decide, by decide, by decide, by decide,
   claim_C9_theorem "a" "s0" ["t1", "t2"] (some "s")
     ⟨[⟨0, "a", none, Status.active, "s0", "s0", ["s0"], some "s", 0, none, none⟩], [], 1⟩
     [] [] ⟨0, "a", none, Status.active, "s0", "s0", ["s0"], some "s", 0, none, none⟩
     (by decide) (by decide) (by decide) (by decide)
     (by intro x hx; cases hx) (by intro x hx; cases hx) (by decide)⟩

/-! ### Helper lemmas for the one-active-span invariant -/

theorem latestSpan_none_all_false {p : Span → Bool} {l : List Span}
    (h : latestSpan p l = none) : ∀ x ∈ l, p x = false := by
  intro x hx
  have := List.filter_eq_nil_iff.mp (latestSpan_eq_none.mp h) x hx
  simpa using this

theorem activeMatch_props {skill : String} {sid : Option String} {sp : Span}
    (h : activeMatch skill sid sp = true) :
    sp.skill = skill ∧ sp.status = Status.active ∧ sessionMatch sid sp = true := by
  simp only [activeMatch, Bool.and_eq_true, decide_eq_true_eq] at h
  exact ⟨h.1.1, h.1.2, h.2⟩

theorem suspendedMatch_props {skill : String} {sid : Option String} {sp : Span}
    (h : suspendedMatch skill sid sp = true) :
    sp.skill = skill ∧ sp.status = Status.suspended ∧ sessionMatch sid sp = true := by
  simp only [suspendedMatch, Bool.and_eq_true, decide_eq_true_eq] at h
  exact ⟨h.1.1, h.1.2, h.2⟩

theorem no_active_conflict_in_scope {skill : String} {sid : Option String}
    {spans : List Span} (hempty : ∀ x ∈ spans, activeMatch skill sid x = false)
    {x r : Span} (hx : x ∈ spans) (hrskill : r.skill = skill)
    (hrsess : sessionMatch sid r = true) (hxact : x.status = Status.active)
    (hskilleq : x.skill = r.skill) (hsesseq : x.session_id = r.session_id) : False := by
  have hfalse := hempty x hx
  cases sid with
  | none => simp [activeMatch, sessionMatch, hxact, hskilleq, hrskill] at hfalse
  | some s0 =>
    simp only [sessionMatch, decide_eq_true_eq] at hrsess
    simp [activeMatch, sessionMatch, hxact, hskilleq, hrskill, hsesseq, hrsess] at hfalse

theorem pairwise_map_preserve {l : List Span} {g : Span → Span}
    (hg : ∀ sp, (g sp).status = sp.status ∧ (g sp).skill = sp.skill ∧
      (g sp).session_id = sp.session_id)
    (h : l.Pairwise fun a b => ¬ ActiveConflict a b) :
    (l.map g).Pairwise fun a b => ¬ ActiveConflict a b := by
  rw [List.pairwise_map]
  refine h.imp ?_
  intro a b hab hconf
  apply hab
  obtain ⟨h1, h2, h3, h4⟩ := hconf
  refine ⟨(hg a).1.symm.trans h1, (hg b).1.symm.trans h2, ?_, ?_⟩
  · rw [← (hg a).2.1, ← (hg b).2.1]
    exact h3
  · rw [← (hg a).2.2, ← (hg b).2.2]
    exact h4

theorem pairwise_map_nonactivating {l : List Span} {g : Span → Span}
    (hg : ∀ sp, (g sp).status = Status.active → g sp = sp)
    (h : l.Pairwise fun a b => ¬ ActiveConflict a b) :
    (l.map g).Pairwise fun a b => ¬ ActiveConflict a b := by
  rw [List.pairwise_map]
  refine h.imp ?_
  intro a b hab hconf
  apply hab
  obtain ⟨h1, h2, h3, h4⟩ := hconf
  have ha := hg a h1
  have hb := hg b h2
  rw [ha] at h1 h3 h4
  rw [hb] at h2 h3 h4
  exact ⟨h1, h2, h3, h4⟩

theorem pairwise_replace {u v : List Span} {a a2 : Span}
    (h : (u ++ a :: v).Pairwise fun x y => ¬ ActiveConflict x y)
    (h1 : ∀ x ∈ u, ¬ ActiveConflict x a2)
    (h2 : ∀ x ∈ v, ¬ ActiveConflict a2 x) :
    (u ++ a2 :: v).Pairwise fun x y => ¬ ActiveConflict x y := by
  rw [List.pairwise_append] at h ⊢
  obtain ⟨hu, hav, hcross⟩ := h
  refine ⟨hu, ?_, ?_⟩
  · rw [List.pairwise_cons]
    exact ⟨h2, (List.pairwise_cons.mp hav).2⟩
  · intro x hx b hb
    rcases List.mem_cons.mp hb with rfl | hbv
    · exact h1 x hx
    · exact hcross x hx b (List.mem_cons_of_mem _ hbv)

theorem pairwise_append_one {l : List Span} {n : Span}
    (h : l.Pairwise fun x y => ¬ ActiveConflict x y)
    (hn : ∀ x ∈ l, ¬ ActiveConflict x n) :
    (l ++ [n]).Pairwise fun x y => ¬ ActiveConflict x y := by
  rw [List.pairwise_append]
  refine ⟨h, List.pairwise_singleton _ _, ?_⟩
  intro x hx b hb
  rcases List.mem_cons.mp hb with rfl | hbv
  · exact hn x hx
  · cases hbv

theorem gocs_preserves_inv (skill : String) (step : Option String) (sid : Option String)
    (st : Store) (hwf : WF st) (hinv : AtMostOneActive st) :
    AtMostOneActive (getOrCreateSpan skill step sid st).2 := by
  cases hl1 : latestSpan (activeMatch skill sid) st.spans with
  | some row =>
    cases step with
    | some s =>
      have heq : (getOrCreateSpan skill (some s) sid st).2 =
          { st with spans := updateById row.span_id (appendStep s) st.spans } := by
        unfold getOrCreateSpan
        rw [hl1]
      rw [heq]
      unfold AtMostOneActive updateById at *
      exact pairwise_map_preserve
        (fun sp => by by_cases h : sp.span_id = row.span_id <;> simp [h, appendStep]) hinv
    | none =>
      have heq : (getOrCreateSpan skill none sid st).2 = st := by
        unfold getOrCreateSpan
        rw [hl1]
      rw [heq]
      exact hinv
  | none =>
    have hempty := latestSpan_none_all_false hl1
    cases hl2 : latestSpan (suspendedMatch skill sid) st.spans with
    | some row =>
      obtain ⟨hmem, hsm⟩ := latestSpan_mem hl2
      obtain ⟨hrskill, hrsusp, hrsess⟩ := suspendedMatch_props hsm
      obtain ⟨u, v, hdec⟩ := List.append_of_mem hmem
      obtain ⟨huid, hvid⟩ := wf_ids_decomp hwf hdec
      have hinv2 : (u ++ row :: v).Pairwise fun x y => ¬ ActiveConflict x y := by
        rw [← hdec]
        exact hinv
      cases step with
      | some s =>
        have heq : (getOrCreateSpan skill (some s) sid st).2 =
            { st with spans := updateById row.span_id (fun sp =>
                { sp with status := Status.active, suspended_at := none,
                          last_step := s, steps := row.steps ++ [s] }) st.spans } := by
          unfold getOrCreateSpan
          rw [hl1, hl2]
        rw [heq]
        unfold AtMostOneActive
        simp only
        rw [hdec, updateById_decomp rfl huid hvid]
        refine pairwise_replace hinv2 ?_ ?_
        · rintro x hx ⟨hx1, _, hx3, hx4⟩
          exact no_active_conflict_in_scope hempty (by rw [hdec]; simp [hx])
            hrskill hrsess hx1 (by simpa using hx3) (by simpa using hx4)
        · rintro x hx ⟨_, hx2, hx3, hx4⟩
          exact no_active_conflict_in_scope hempty (by rw [hdec]; simp [hx])
            hrskill hrsess hx2 (by simp at hx3; exact hx3.symm)
            (by simp at hx4; exact hx4.symm)
      | none =>
        cases hgl : row.steps.getLast? with
        | some l =>
          have heq : (getOrCreateSpan skill none sid st).2 =
              { st with spans := updateById row.span_id (fun sp =>
                  { sp with status := Status.active, suspended_at := none,
                            last_step := l, steps := row.steps }) st.spans } := by
            simp only [getOrCreateSpan, hl1, hl2, hgl]
          rw [heq]
          unfold AtMostOneActive
          simp only
          rw [hdec, updateById_decomp rfl huid hvid]
          refine pairwise_replace hinv2 ?_ ?_
          · rintro x hx ⟨hx1, _, hx3, hx4⟩
            exact no_active_conflict_in_scope hempty (by rw [hdec]; simp [hx])
              hrskill hrsess hx1 (by simpa using hx3) (by simpa using hx4)
          · rintro x hx ⟨_, hx2, hx3, hx4⟩
            exact no_active_conflict_in_scope hempty (by rw [hdec]; simp [hx])
              hrskill hrsess hx2 (by simp at hx3; exact hx3.symm)
              (by simp at hx4; exact hx4.symm)
        | none =>
          have heq : (getOrCreateSpan skill none sid st).2 = st := by
            simp only [getOrCreateSpan, hl1, hl2, hgl]
          rw [heq]
          exact hinv
    | none =>
      have heq : (getOrCreateSpan skill step sid st).2 =
          { st with spans := st.spans ++ [newSpanFor skill step sid st],
                    clock := st.clock + 1 } := by
        unfold getOrCreateSpan
        rw [hl1, hl2]
      rw [heq]
      unfold AtMostOneActive
      simp only
      apply pairwise_append_one hinv
      rintro x hx ⟨hx1, _, hx3, hx4⟩
      have hnsess : sessionMatch sid (newSpanFor skill step sid st) = true := by
        cases sid <;> simp [sessionMatch, newSpanFor]
      exact no_active_conflict_in_scope hempty hx (by simp [newSpanFor]) hnsess hx1 hx3 hx4

theorem suspend_preserves_inv (skill : String) (sid : Option String) (st : Store)
    (hinv : AtMostOneActive st) : AtMostOneActive (suspendCurrentSpan skill sid st) := by
  unfold suspendCurrentSpan AtMostOneActive at *
  simp only
  apply pairwise_map_nonactivating ?_ hinv
  intro sp h
  by_cases hm : activeMatch skill sid sp <;> simp [hm] at h ⊢

theorem delegated_preserves_inv (skill dstep : String) (sid : Option String) (st : Store)
    (hinv : AtMostOneActive st) : AtMostOneActive (recordDelegatedStep skill dstep sid st) := by
  unfold recordDelegatedStep
  cases hl : latestSpan (activeMatch skill sid) st.spans with
  | none => exact hinv
  | some row =>
    by_cases hlast : row.steps.getLast? = some dstep
    · simp only [hlast, if_pos rfl]
      exact hinv
    · simp only [if_neg hlast]
      unfold AtMostOneActive updateById at *
      simp only
      exact pairwise_map_preserve
        (fun sp => by by_cases h : sp.span_id = row.span_id <;> simp [h, appendStep]) hinv

theorem close_preserves_inv (sid2 : Option String) (st : Store)
    (hinv : AtMostOneActive st) : AtMostOneActive (closeActiveSkillSession sid2 st) := by
  unfold closeActiveSkillSession
  cases sid2 with
  | none => exact hinv
  | some s =>
    unfold AtMostOneActive at *
    simp only
    apply pairwise_map_nonactivating ?_ hinv
    intro sp h
    by_cases hm : openSessionMatch s sp <;> simp [hm] at h ⊢

theorem gocs_creates_only_without_active (skill : String) (step : Option String)
    (sid : Option String) (st : Store)
    (hlen : (getOrCreateSpan skill step sid st).2.spans.length ≠ st.spans.length) :
    st.spans.filter (activeMatch skill sid) = [] := by
  cases hl1 : latestSpan (activeMatch skill sid) st.spans with
  | none => exact latestSpan_eq_none.mp hl1
  | some row =>
    exfalso
    apply hlen
    unfold getOrCreateSpan
    rw [hl1]
    cases step <;> simp [updateById]

/-! ### C2 -/

/-- C2: starting from a well-formed store satisfying the
at-most-one-active-span-per-(procedure, session) invariant, every
operation (get-or-create, suspend, delegated append, session-end
completion) leaves a store satisfying it, and `get_or_create_span`
grows the table (creates a span) only when no active span matches its
scope. -/
theorem claim_C2_theorem (skill dstep : String) (step : Option String)
    (sid sid2 : Option String) (st : Store)
    (hwf : WF st) (hinv : AtMostOneActive st) :
    AtMostOneActive (getOrCreateSpan skill step sid st).2 ∧
    AtMostOneActive (suspendCurrentSpan skill sid st) ∧
    AtMostOneActive (recordDelegatedStep skill dstep sid st) ∧
    AtMostOneActive (closeActiveSkillSession sid2 st) ∧
    ((getOrCreateSpan skill step sid st).2.spans.length ≠ st.spans.length →
      st.spans.filter (activeMatch skill sid) = []) :=
  ⟨gocs_preserves_inv skill step sid st hwf hinv,
   suspend_preserves_inv skill sid st hinv,
   delegated_preserves_inv skill dstep sid st hinv,
   close_preserves_inv sid2 st hinv,
   gocs_creates_only_without_active skill step sid st⟩

/-- C2, witness at a concrete input. -/
theorem claim_C2_witness :
    WF ⟨[], [], 0⟩ ∧ AtMostOneActive ⟨[], [], 0⟩ ∧
    (AtMostOneActive (getOrCreateSpan "a" (some "x") (some "s") ⟨[], [], 0⟩).2 ∧
     AtMostOneActive (suspendCurrentSpan "a" (some "s") ⟨[], [], 0⟩) ∧
     AtMostOneActive (recordDelegatedStep "a" "d" (some "s") ⟨[], [], 0⟩) ∧
     AtMostOneActive (closeActiveSkillSession (some "t") ⟨[], [], 0⟩) ∧
     ((getOrCreateSpan "a" (some "x") (some "s") ⟨[], [], 0⟩).2.spans.length ≠
        (⟨[], [], 0⟩ : Store).spans.length →
       (⟨[], [], 0⟩ : Store).spans.filter (activeMatch "a" (some "s")) = [])) :=
  ⟨by decide, by unfold AtMostOneActive; exact List.Pairwise.nil,
   claim_C2_theorem "a" "d" (some "x") (some "s") (some "t") ⟨[], [], 0⟩
     (by decide) (by unfold AtMostOneActive; exact List.Pairwise.nil)⟩

/-! ### C3 -/

/-- C3: for a scope whose only open (active or suspended) span is the
active span `a`, suspending and then calling `get_or_create_span`
again for the same `(procedure, session_id)` returns the id of `a`
(resume, not re-create), with the status back to active, the
`suspended_at` stamp cleared, and no new span created. -/
theorem claim_C3_theorem (skill : String) (step : Option String) (sid : Option String)
    (st : Store) (u v : List Span) (a : Span)
    (hwf : WF st)
    (hdec : st.spans = u ++ a :: v)
    (haact : a.status = Status.active)
    (haskill : a.skill = skill)
    (hasess : sessionMatch sid a = true)
    (hne : a.steps ≠ [] ∨ step.isSome = true)
    (huv : ∀ x, x ∈ u ∨ x ∈ v →
      ¬(x.skill = skill ∧ sessionMatch sid x = true ∧
        (x.status = Status.active ∨ x.status = Status.suspended))) :
    (getOrCreateSpan skill step sid (suspendCurrentSpan skill sid st)).1 = some a.span_id ∧
    (getOrCreateSpan skill step sid (suspendCurrentSpan skill sid st)).2.spans.length =
      st.spans.length ∧
    ∃ a2, (getOrCreateSpan skill step sid (suspendCurrentSpan skill sid st)).2.spans =
        u ++ a2 :: v ∧
      a2.span_id = a.span_id ∧ a2.status = Status.active ∧ a2.suspended_at = none := by
  have hscope : ∀ x, x ∈ u ∨ x ∈ v → activeMatch skill sid x = false := by
    intro x hx
    by_contra h
    have h2 : activeMatch skill sid x = true := by
      revert h
      cases activeMatch skill sid x <;> simp
    obtain ⟨p1, p2, p3⟩ := activeMatch_props h2
    exact huv x hx ⟨p1, p3, Or.inl p2⟩
  have hscopeS : ∀ x, x ∈ u ∨ x ∈ v → suspendedMatch skill sid x = false := by
    intro x hx
    by_contra h
    have h2 : suspendedMatch skill sid x = true := by
      revert h
      cases suspendedMatch skill sid x <;> simp
    obtain ⟨p1, p2, p3⟩ := suspendedMatch_props h2
    exact huv x hx ⟨p1, p3, Or.inr p2⟩
  have hamatch : activeMatch skill sid a = true := by
    simp [activeMatch, haskill, haact, hasess]
  set a1 : Span := { a with status := Status.suspended, suspended_at := some st.clock } with ha1
  have hst1 : (suspendCurrentSpan skill sid st).spans = u ++ a1 :: v := by
    unfold suspendCurrentSpan
    simp only
    rw [hdec, List.map_append, List.map_cons]
    rw [map_id_on (fun x hx => by simp [hscope x (Or.inl hx)]),
        map_id_on (fun x hx => by simp [hscope x (Or.inr hx)])]
    simp [hamatch, ha1]
  have hsess1 : sessionMatch sid a1 = true := by
    cases sid with
    | none => simp [sessionMatch]
    | some x0 => simpa [sessionMatch, ha1] using hasess
  have hfa : latestSpan (activeMatch skill sid) (suspendCurrentSpan skill sid st).spans =
      none := by
    rw [hst1]
    apply latestSpan_eq_none.mpr
    apply List.filter_eq_nil_iff.mpr
    intro x hx
    rcases List.mem_append.mp hx with hxu | hxc
    · simp [hscope x (Or.inl hxu)]
    · rcases List.mem_cons.mp hxc with rfl | hxv
      · simp [activeMatch, ha1]
      · simp [hscope x (Or.inr hxv)]
  have hfs : latestSpan (suspendedMatch skill sid) (suspendCurrentSpan skill sid st).spans =
      some a1 := by
    rw [hst1]
    apply latestSpan_decomp (fun x hx => hscopeS x (Or.inl hx))
      (fun x hx => hscopeS x (Or.inr hx))
    have h2 : a1.status = Status.suspended := by
      rw [ha1]
    simp [suspendedMatch, h2, hsess1, haskill]
  obtain ⟨huid, hvid⟩ := wf_ids_decomp hwf hdec
  have huid1 : ∀ x ∈ u, x.span_id ≠ a1.span_id := by
    intro x hx
    simpa [ha1] using huid x hx
  have hvid1 : ∀ x ∈ v, x.span_id ≠ a1.span_id := by
    intro x hx
    simpa [ha1] using hvid x hx
  cases step with
  | some s =>
    have heq : getOrCreateSpan skill (some s) sid (suspendCurrentSpan skill sid st) =
        (some a1.span_id,
         { suspendCurrentSpan skill sid st with
           spans := updateById a1.span_id (fun sp =>
             { sp with status := Status.active, suspended_at := none,
                       last_step := s, steps := a1.steps ++ [s] })
             (suspendCurrentSpan skill sid st).spans }) := by
      unfold getOrCreateSpan
      rw [hfa, hfs]
    have hspans :
        (getOrCreateSpan skill (some s) sid (suspendCurrentSpan skill sid st)).2.spans =
          u ++ ({ a1 with status := Status.active, suspended_at := none, last_step := s, steps := a1.steps ++ [s] }) :: v := by
      rw [heq]
      simp only
      rw [hst1, updateById_decomp rfl huid1 hvid1]
    refine ⟨?_, ?_, ?_⟩
    · rw [heq]
    · rw [hspans, hdec]
      simp
    · refine ⟨_, hspans, ?_, ?_, ?_⟩ <;> simp [ha1]
  | none =>
    have hane : a1.steps ≠ [] := by
      rcases hne with h | h
      · simpa [ha1] using h
      · simp at h
    obtain ⟨l, hgl⟩ : ∃ l, a1.steps.getLast? = some l := by
      cases hl : a1.steps.getLast? with
      | none => exact absurd (List.getLast?_eq_none_iff.mp hl) hane
      | some l => exact ⟨l, rfl⟩
    have heq : getOrCreateSpan skill none sid (suspendCurrentSpan skill sid st) =
        (some a1.span_id,
         { suspendCurrentSpan skill sid st with
           spans := updateById a1.span_id (fun sp =>
             { sp with status := Status.active, suspended_at := none,
                       last_step := l, steps := a1.steps })
             (suspendCurrentSpan skill sid st).spans }) := by
      simp only [getOrCreateSpan, hfa, hfs, hgl]
    have hspans :
        (getOrCreateSpan skill none sid (suspendCurrentSpan skill sid st)).2.spans =
          u ++ ({ a1 with status := Status.active, suspended_at := none, last_step := l, steps := a1.steps }) :: v := by
      rw [heq]
      simp only
      rw [hst1, updateById_decomp rfl huid1 hvid1]
    refine ⟨?_, ?_, ?_⟩
    · rw [heq]
    · rw [hspans, hdec]
      simp
    · refine ⟨_, hspans, ?_, ?_, ?_⟩ <;> simp [ha1]

/-- C3, witness at a concrete input. -/
theorem claim_C3_witness :
    WF ⟨[⟨0, "a", none, Status.active, "s1", "s1", ["s1"], some "s", 0, none, none⟩], [], 1⟩ ∧
    ((getOrCreateSpan "a" (some "s2") (some "s") (suspendCurrentSpan "a" (some "s")
        ⟨[⟨0, "a", none, Status.active, "s1", "s1", ["s1"], some "s", 0, none, none⟩], [], 1⟩)).1 =
        some 0 ∧
     (getOrCreateSpan "a" (some "s2") (some "s") (suspendCurrentSpan "a" (some "s")
        ⟨[⟨0, "a", none, Status.active, "s1", "s1", ["s1"], some "s", 0, none, none⟩], [], 1⟩)).2.spans.length = 1 ∧
     ∃ a2, (getOrCreateSpan "a" (some "s2") (some "s") (suspendCurrentSpan "a" (some "s")
        ⟨[⟨0, "a", none, Status.active, "s1", "s1", ["s1"], some "s", 0, none, none⟩], [], 1⟩)).2.spans =
        [] ++ a2 :: [] ∧
       a2.span_id = 0 ∧ a2.status = Status.active ∧ a2.suspended_at = none) :=
  ⟨by decide,
   claim_C3_theorem "a" (some "s2") (some "s")
     ⟨[⟨0, "a", none, Status.active, "s1", "s1", ["s1"], some "s", 0, none, none⟩], [], 1⟩
     [] [] ⟨0, "a", none, Status.active, "s1", "s1", ["s1"], some "s", 0, none, none⟩
     (by decide) rfl rfl rfl (by decide) (by decide)
     (by rintro x (h | h) <;> simp at h)⟩

/-! ### C6 -/

/-- C6: when `get_or_create_span` creates a new span (no active and no
suspended span matches its scope), the parent of the new span is the
most recently started span in scope whose skill differs and whose
status is active or suspended (maximal `started_at` among the
qualifying rows); when no such row exists the parent is absent. -/
theorem claim_C6_theorem (skill : String) (step : Option String) (sid : Option String)
    (st : Store)
    (hact : st.spans.filter (activeMatch skill sid) = [])
    (hsus : st.spans.filter (suspendedMatch skill sid) = []) :
    ∃ sp, (getOrCreateSpan skill step sid st).2.spans = st.spans ++ [sp] ∧
      (getOrCreateSpan skill step sid st).1 = some sp.span_id ∧
      ((∀ x ∈ st.spans, parentMatch skill sid x = false) → sp.parent_span_id = none) ∧
      ((∃ x ∈ st.spans, parentMatch skill sid x = true) →
        ∃ r, r ∈ st.spans ∧ parentMatch skill sid r = true ∧
          (∀ y ∈ st.spans, parentMatch skill sid y = true →
            y.started_at ≤ r.started_at) ∧
          sp.parent_span_id = some r.span_id) := by
  have hact2 : latestSpan (activeMatch skill sid) st.spans = none :=
    latestSpan_eq_none.mpr hact
  have hsus2 : latestSpan (suspendedMatch skill sid) st.spans = none :=
    latestSpan_eq_none.mpr hsus
  have heq : getOrCreateSpan skill step sid st =
      (some st.clock,
       { st with spans := st.spans ++ [newSpanFor skill step sid st],
                 clock := st.clock + 1 }) := by
    unfold getOrCreateSpan
    rw [hact2, hsus2]
  refine ⟨newSpanFor skill step sid st, ?_, ?_, ?_, ?_⟩
  · rw [heq]
  · rw [heq]
    simp [newSpanFor]
  · intro h
    have hnil : st.spans.filter (parentMatch skill sid) = [] :=
      List.filter_eq_nil_iff.mpr (fun x hx => by simp [h x hx])
    simp [newSpanFor, latestSpan_eq_none.mpr hnil]
  · rintro ⟨x, hx, hpx⟩
    cases hlp : latestSpan (parentMatch skill sid) st.spans with
    | none =>
      exfalso
      have := List.filter_eq_nil_iff.mp (latestSpan_eq_none.mp hlp) x hx
      simp [hpx] at this
    | some r =>
      obtain ⟨hrmem, hrp⟩ := latestSpan_mem hlp
      exact ⟨r, hrmem, hrp, latestSpan_le hlp, by simp [newSpanFor, hlp]⟩

/-- C6, witness at a concrete input: creating a span for skill `a`
while a span for skill `b` is active in the same session. -/
theorem claim_C6_witness :
    (⟨[⟨0, "b", none, Status.active, "SKILL", "SKILL", ["SKILL"], some "s", 0, none, none⟩],
        [], 1⟩ : Store).spans.filter (activeMatch "a" (some "s")) = [] ∧
    (⟨[⟨0, "b", none, Status.active, "SKILL", "SKILL", ["SKILL"], some "s", 0, none, none⟩],
        [], 1⟩ : Store).spans.filter (suspendedMatch "a" (some "s")) = [] ∧
    (∃ sp, (getOrCreateSpan "a" (some "x") (some "s")
        ⟨[⟨0, "b", none, Status.active, "SKILL", "SKILL", ["SKILL"], some "s", 0, none, none⟩],
         [], 1⟩).2.spans =
        (⟨[⟨0, "b", none, Status.active, "SKILL", "SKILL", ["SKILL"], some "s", 0, none, none⟩],
          [], 1⟩ : Store).spans ++ [sp] ∧
      (getOrCreateSpan "a" (some "x") (some "s")
        ⟨[⟨0, "b", none, Status.active, "SKILL", "SKILL", ["SKILL"], some "s", 0, none, none⟩],
         [], 1⟩).1 = some sp.span_id ∧
      ((∀ x ∈ (⟨[⟨0, "b", none, Status.active, "SKILL", "SKILL", ["SKILL"], some "s", 0, none,
            none⟩], [], 1⟩ : Store).spans, parentMatch "a" (some "s") x = false) →
        sp.parent_span_id = none) ∧
      ((∃ x ∈ (⟨[⟨0, "b", none, Status.active, "SKILL", "SKILL", ["SKILL"], some "s", 0, none,
            none⟩], [], 1⟩ : Store).spans, parentMatch "a" (some "s") x = true) →
        ∃ r, r ∈ (⟨[⟨0, "b", none, Status.active, "SKILL", "SKILL", ["SKILL"], some "s", 0,
            none, none⟩], [], 1⟩ : Store).spans ∧ parentMatch "a" (some "s") r = true ∧
          (∀ y ∈ (⟨[⟨0, "b", none, Status.active, "SKILL", "SKILL", ["SKILL"], some "s", 0,
              none, none⟩], [], 1⟩ : Store).spans, parentMatch "a" (some "s") y = true →
            y.started_at ≤ r.started_at) ∧
          sp.parent_span_id = some r.span_id)) :=
  ⟨by decide, by decide,
   claim_C6_theorem "a" (some "x") (some "s")
     ⟨[⟨0, "b", none, Status.active, "SKILL", "SKILL", ["SKILL"], some "s", 0, none, none⟩],
      [], 1⟩ (by decide) (by decide)⟩

/-! ### C7 -/

theorem close_spans_eq (sid : String) (st : Store) :
    (closeActiveSkillSession (some sid) st).spans =
      st.spans.map (fun sp => if openSessionMatch sid sp then { sp with status := Status.completed, completed_at := some st.clock } else sp) := rfl

/-- C7: for a session id, session-end completion turns every active or
suspended span of that session into a completed span with
`completed_at` set and the identifier unchanged, leaves every other
row (other sessions, already completed rows) untouched, and a second
call changes no span. -/
theorem claim_C7_theorem (sid : String) (st : Store) :
    (closeActiveSkillSession (some sid) st).spans.length = st.spans.length ∧
    (∀ i, (h : i < st.spans.length) → (h2 : i < (closeActiveSkillSession (some sid) st).spans.length) →
      (openSessionMatch sid st.spans[i] = true →
        ((closeActiveSkillSession (some sid) st).spans[i]).status = Status.completed ∧
        ((closeActiveSkillSession (some sid) st).spans[i]).completed_at = some st.clock ∧
        ((closeActiveSkillSession (some sid) st).spans[i]).span_id = st.spans[i].span_id) ∧
      (openSessionMatch sid st.spans[i] = false →
        (closeActiveSkillSession (some sid) st).spans[i] = st.spans[i])) ∧
    (closeActiveSkillSession (some sid) (closeActiveSkillSession (some sid) st)).spans =
      (closeActiveSkillSession (some sid) st).spans := by
  refine ⟨?_, ?_, ?_⟩
  · rw [close_spans_eq]
    simp
  · intro i h h2
    constructor
    · intro hm
      simp only [close_spans_eq, List.getElem_map, hm, if_pos]
      simp
    · intro hm
      simp only [close_spans_eq, List.getElem_map, hm]
      simp
  · have hclosed : ∀ sp ∈ (closeActiveSkillSession (some sid) st).spans,
        openSessionMatch sid sp = false := by
      rw [close_spans_eq]
      intro sp hsp
      obtain ⟨x, hx, rfl⟩ := List.mem_map.mp hsp
      by_cases hm : openSessionMatch sid x
      · rw [if_pos hm]
        simp [openSessionMatch]
      · rw [if_neg hm]
        simpa using hm
    rw [close_spans_eq sid (closeActiveSkillSession (some sid) st)]
    exact map_id_on (fun x hx => by simp [hclosed x hx])

/-- C7, witness at a concrete input: one active span of the session,
one active span of another session. -/
theorem claim_C7_witness :
    (closeActiveSkillSession (some "s")
        ⟨[⟨0, "a", none, Status.active, "x", "x", ["x"], some "s", 0, none, none⟩,
          ⟨1, "b", none, Status.active, "y", "y", ["y"], some "t", 1, none, none⟩],
         [], 2⟩).spans.length = 2 ∧
    (closeActiveSkillSession (some "s") (closeActiveSkillSession (some "s")
        ⟨[⟨0, "a", none, Status.active, "x", "x", ["x"], some "s", 0, none, none⟩,
          ⟨1, "b", none, Status.active, "y", "y", ["y"], some "t", 1, none, none⟩],
         [], 2⟩)).spans =
      (closeActiveSkillSession (some "s")
        ⟨[⟨0, "a", none, Status.active, "x", "x", ["x"], some "s", 0, none, none⟩,
          ⟨1, "b", none, Status.active, "y", "y", ["y"], some "t", 1, none, none⟩],
         [], 2⟩).spans :=
  ⟨ ( claim_C7_theorem "s"
      ⟨[⟨0, "a", none, Status.active, "x", "x", ["x"], some "s", 0, none, none⟩,
        ⟨1, "b", none, Status.active, "y", "y", ["y"], some "t", 1, none, none⟩],
       [], 2⟩).1,
   ( claim_C7_theorem "s"
      ⟨[⟨0, "a", none, Status.active, "x", "x", ["x"], some "s", 0, none, none⟩,
        ⟨1, "b", none, Status.active, "y", "y", ["y"], some "t", 1, none, none⟩],
       [], 2⟩).2.2⟩

/-! ### C8 -/

/-- C8: the delegation tracker never creates a span, never changes any
status, and never modifies a suspended span; when an active span
exists in scope and the step differs from its last recorded step it
appends the step and emits a delegation event; when no active span
exists in scope the whole store is unchanged. -/
theorem claim_C8_theorem (skill dstep : String) (sid : Option String) (st : Store)
    (hwf : WF st) :
    (recordDelegatedStep skill dstep sid st).spans.length = st.spans.length ∧
    (∀ i, (h : i < st.spans.length) →
      (h2 : i < (recordDelegatedStep skill dstep sid st).spans.length) →
      ((recordDelegatedStep skill dstep sid st).spans[i]).status = st.spans[i].status ∧
      ((recordDelegatedStep skill dstep sid st).spans[i]).span_id = st.spans[i].span_id) ∧
    (∀ i, (h : i < st.spans.length) →
      (h2 : i < (recordDelegatedStep skill dstep sid st).spans.length) →
      st.spans[i].status = Status.suspended →
      (recordDelegatedStep skill dstep sid st).spans[i] = st.spans[i]) ∧
    (latestSpan (activeMatch skill sid) st.spans = none →
      recordDelegatedStep skill dstep sid st = st) ∧
    (∀ r, latestSpan (activeMatch skill sid) st.spans = some r →
      r.steps.getLast? ≠ some dstep →
      (∃ u2 v2, st.spans = u2 ++ r :: v2 ∧
        (recordDelegatedStep skill dstep sid st).spans = u2 ++ appendStep dstep r :: v2) ∧
      (recordDelegatedStep skill dstep sid st).events =
        st.events ++ [{ skill := skill, phase := dstep, event_type := "subagent_step_delegate" }]) := by
  cases hl : latestSpan (activeMatch skill sid) st.spans with
  | none =>
    have heq : recordDelegatedStep skill dstep sid st = st := by
      unfold recordDelegatedStep
      rw [hl]
    rw [heq]
    refine ⟨rfl, fun i h h2 => ⟨rfl, rfl⟩, fun i h h2 hsusp => rfl, fun _ => rfl, ?_⟩
    intro r hr
    cases hr
  | some r =>
    obtain ⟨hrmem, hrmatch⟩ := latestSpan_mem hl
    have hract : r.status = Status.active := (activeMatch_props hrmatch).2.1
    by_cases hlast : r.steps.getLast? = some dstep
    · have heq : recordDelegatedStep skill dstep sid st = st := by
        unfold recordDelegatedStep
        rw [hl]
        simp [hlast]
      rw [heq]
      refine ⟨rfl, fun i h h2 => ⟨rfl, rfl⟩, fun i h h2 hsusp => rfl, fun _ => rfl, ?_⟩
      intro r2 hr2 hlast2
      injection hr2 with hr2
      subst hr2
      exact absurd hlast hlast2
    · have heq : recordDelegatedStep skill dstep sid st =
          { st with spans := updateById r.span_id (appendStep dstep) st.spans,
                    events := st.events ++ [{ skill := skill, phase := dstep, event_type := "subagent_step_delegate" }] } := by
        unfold recordDelegatedStep
        rw [hl]
        simp [hlast]
      refine ⟨?_, ?_, ?_, ?_, ?_⟩
      · rw [heq]
        simp [updateById]
      · intro i h h2
        simp only [heq, updateById, List.getElem_map]
        by_cases hid : st.spans[i].span_id = r.span_id <;> simp [hid, appendStep]
      · intro i h h2 hsusp
        simp only [heq, updateById, List.getElem_map]
        have hid : ¬ st.spans[i].span_id = r.span_id := by
          intro hideq
          have hmem : st.spans[i] ∈ st.spans := List.getElem_mem h
          have := wf_mem_inj hwf hmem hrmem hideq
          rw [this] at hsusp
          rw [hract] at hsusp
          cases hsusp
        simp [hid]
      · intro habs
        cases habs
      · intro r2 hr2 hlast2
        injection hr2 with hr2
        subst hr2
        obtain ⟨u2, v2, hdec2⟩ := List.append_of_mem hrmem
        obtain ⟨huid2, hvid2⟩ := wf_ids_decomp hwf hdec2
        refine ⟨⟨u2, v2, hdec2, ?_⟩, ?_⟩
        · rw [heq]
          simp only
          rw [hdec2, updateById_decomp rfl huid2 hvid2]
        · rw [heq]

/-- C8, witness at a concrete input: one active span in scope, a new
delegated step gets appended and one delegation event emitted. -/
theorem claim_C8_witness :
    WF ⟨[⟨0, "a", none, Status.active, "s1", "s1", ["s1"], some "s", 0, none, none⟩], [], 1⟩ ∧
    (recordDelegatedStep "a" "d" (some "s")
        ⟨[⟨0, "a", none, Status.active, "s1", "s1", ["s1"], some "s", 0, none, none⟩], [], 1⟩).spans.length =
      (⟨[⟨0, "a", none, Status.active, "s1", "s1", ["s1"], some "s", 0, none, none⟩], [], 1⟩ :
        Store).spans.length ∧
    ((∃ u2 v2,
        (⟨[⟨0, "a", none, Status.active, "s1", "s1", ["s1"], some "s", 0, none, none⟩], [], 1⟩ :
          Store).spans =
          u2 ++ ⟨0, "a", none, Status.active, "s1", "s1", ["s1"], some "s", 0, none, none⟩ :: v2 ∧
        (recordDelegatedStep "a" "d" (some "s")
          ⟨[⟨0, "a", none, Status.active, "s1", "s1", ["s1"], some "s", 0, none, none⟩], [], 1⟩).spans =
          u2 ++ appendStep "d" ⟨0, "a", none, Status.active, "s1", "s1", ["s1"], some "s", 0, none, none⟩ :: v2) ∧
      (recordDelegatedStep "a" "d" (some "s")
        ⟨[⟨0, "a", none, Status.active, "s1", "s1", ["s1"], some "s", 0, none, none⟩], [], 1⟩).events =
        (⟨[⟨0, "a", none, Status.active, "s1", "s1", ["s1"], some "s", 0, none, none⟩], [], 1⟩ :
          Store).events ++ [{ skill := "a", phase := "d", event_type := "subagent_step_delegate" }]) :=
  ⟨by decide,
   ( claim_C8_theorem "a" "d" (some "s")
     ⟨[⟨0, "a", none, Status.active, "s1", "s1", ["s1"], some "s", 0, none, none⟩], [], 1⟩
     (by decide)).1,
   ( claim_C8_theorem "a" "d" (some "s")
     ⟨[⟨0, "a", none, Status.active, "s1", "s1", ["s1"], some "s", 0, none, none⟩], [], 1⟩
     (by decide)).2.2.2.2
     ⟨0, "a", none, Status.active, "s1", "s1", ["s1"], some "s", 0, none, none⟩
     (by decide) (by decide)⟩

/-! ### Helper lemmas for the dependency gate -/

theorem missingDeps_mem {c : Contract} {stepc visited : List String} {a p : String} :
    (a, p) ∈ missingDeps c stepc visited ↔
      a ∈ stepc ∧ a ∉ ROOT_INPUTS ∧ c.produces.lookup a = some p ∧
        p ∉ visited ∧ p ∉ c.optional_steps := by
  unfold missingDeps
  rw [List.mem_filterMap]
  constructor
  · rintro ⟨x, hx, hfx⟩
    by_cases hr : x ∈ ROOT_INPUTS
    · simp [hr] at hfx
    · cases hl : c.produces.lookup x with
      | none => simp [hr, hl] at hfx
      | some q =>
        by_cases hv : q ∈ visited
        · simp [hr, hl, hv] at hfx
        · by_cases ho : q ∈ c.optional_steps
          · simp [hr, hl, hv, ho] at hfx
          · simp [hr, hl, hv, ho] at hfx
            obtain ⟨rfl, rfl⟩ := hfx
            exact ⟨hx, hr, hl, hv, ho⟩
  · rintro ⟨hx, hr, hl, hv, ho⟩
    exact ⟨a, hx, by simp [hr, hl, hv, ho]⟩

theorem stepGateCheck_none_of_steps_none (c : Contract) (skill step : String)
    (sid : Option String) (dbError : Bool) (st : Store)
    (h : getSpanSteps skill sid dbError st = none) :
    stepGateCheck c skill step sid dbError st = none := by
  unfold stepGateCheck
  rw [h]
  split_ifs <;> rfl

theorem stepGateCheck_eq (c : Contract) (skill step : String) (sid : Option String)
    (st : Store) (visited : List String)
    (hspan : getSpanSteps skill sid false st = some visited) :
    stepGateCheck c skill step sid false st =
      (if (c.consumes.lookup step).getD [] = [] then none
       else if ((c.consumes.lookup step).getD []).all (fun a => decide (a ∈ ROOT_INPUTS)) then none
       else if missingDeps c ((c.consumes.lookup step).getD []) visited = [] then none
       else some (reasonString step (missingDeps c ((c.consumes.lookup step).getD []) visited))) := by
  unfold stepGateCheck
  rw [hspan]

/-! ### C4 -/

/-- C4: with an active span in scope (and no storage error), the gate
blocks exactly when some consumed artifact is not a root input and has
a declared producer that is neither among the visited steps of the
span nor flagged optional; the missing-dependency list contains
exactly those (artifact, producer) pairs, and the block reason is the
formatted rendering of that list. In every other case the gate
allows. -/
theorem claim_C4_theorem (c : Contract) (skill step : String) (sid : Option String)
    (st : Store) (visited : List String)
    (hspan : getSpanSteps skill sid false st = some visited) :
    ((stepGateCheck c skill step sid false st).isSome ↔
      ∃ a p, a ∈ (c.consumes.lookup step).getD [] ∧ a ∉ ROOT_INPUTS ∧
        c.produces.lookup a = some p ∧ p ∉ visited ∧ p ∉ c.optional_steps) ∧
    (∀ a p, (a, p) ∈ missingDeps c ((c.consumes.lookup step).getD []) visited ↔
      (a ∈ (c.consumes.lookup step).getD [] ∧ a ∉ ROOT_INPUTS ∧
        c.produces.lookup a = some p ∧ p ∉ visited ∧ p ∉ c.optional_steps)) ∧
    (∀ rsn, stepGateCheck c skill step sid false st = some rsn →
      rsn = reasonString step (missingDeps c ((c.consumes.lookup step).getD []) visited)) := by
  have hck := stepGateCheck_eq c skill step sid st visited hspan
  refine ⟨?_, fun a p => missingDeps_mem, ?_⟩
  · rw [hck]
    split_ifs with h1 h2 h3
    · simp only [Option.isSome_none, Bool.false_eq_true, false_iff]
      rintro ⟨a, p, ha, _⟩
      rw [h1] at ha
      cases ha
    · simp only [Option.isSome_none, Bool.false_eq_true, false_iff]
      rintro ⟨a, p, ha, har, _⟩
      have := List.all_eq_true.mp h2 a ha
      simp at this
      exact har this
    · simp only [Option.isSome_none, Bool.false_eq_true, false_iff]
      rintro ⟨a, p, ha, har, hl, hv, ho⟩
      have : (a, p) ∈ missingDeps c ((c.consumes.lookup step).getD []) visited :=
        missingDeps_mem.mpr ⟨ha, har, hl, hv, ho⟩
      rw [h3] at this
      cases this
    · simp only [Option.isSome_some, true_iff]
      obtain ⟨x, hx⟩ := List.exists_mem_of_ne_nil _ h3
      obtain ⟨a, p⟩ := x
      obtain ⟨ha, har, hl, hv, ho⟩ := missingDeps_mem.mp hx
      exact ⟨a, p, ha, har, hl, hv, ho⟩
  · rw [hck]
    split_ifs with h1 h2 h3
    · intro rsn h
      cases h
    · intro rsn h
      cases h
    · intro rsn h
      cases h
    · intro rsn h
      injection h with h
      exact h.symm

/-- C4, witness at the concrete scenario from the spec: procedure `P`
with `gather` producing `facts` and `decide` consuming `facts`, a
fresh active span whose visited list is `[SKILL]`. -/
theorem claim_C4_witness :
    getSpanSteps "P" (some "s") false
      ⟨[⟨0, "P", none, Status.active, "SKILL", "SKILL", ["SKILL"], some "s", 0, none, none⟩],
       [], 1⟩ = some ["SKILL"] ∧
    ((stepGateCheck ⟨[("facts", "gather")], [("decide", ["facts"])], []⟩ "P" "decide"
        (some "s") false
        ⟨[⟨0, "P", none, Status.active, "SKILL", "SKILL", ["SKILL"], some "s", 0, none, none⟩],
         [], 1⟩).isSome ↔
      ∃ a p, a ∈ ((Contract.consumes ⟨[("facts", "gather")], [("decide", ["facts"])], []⟩).lookup
          "decide").getD [] ∧
        a ∉ ROOT_INPUTS ∧
        (Contract.produces ⟨[("facts", "gather")], [("decide", ["facts"])], []⟩).lookup a =
          some p ∧
        p ∉ ["SKILL"] ∧
        p ∉ Contract.optional_steps ⟨[("facts", "gather")], [("decide", ["facts"])], []⟩) :=
  ⟨by decide,
   (claim_C4_theorem ⟨[("facts", "gather")], [("decide", ["facts"])], []⟩ "P" "decide"
     (some "s")
     ⟨[⟨0, "P", none, Status.active, "SKILL", "SKILL", ["SKILL"], some "s", 0, none, none⟩],
      [], 1⟩ ["SKILL"] (by decide)).1⟩

/-! ### C10 -/

/-- C10: a consumed artifact that is not a root input and has no
declared producer in the produces map is treated as satisfied: it
never appears among the missing dependencies, and when every non-root
consumed artifact lacks a producer the gate allows. -/
theorem claim_C10_theorem (c : Contract) (skill step : String) (sid : Option String)
    (st : Store) (visited : List String)
    (hspan : getSpanSteps skill sid false st = some visited) :
    (∀ a p, c.produces.lookup a = none →
      (a, p) ∉ missingDeps c ((c.consumes.lookup step).getD []) visited) ∧
    ((∀ a, a ∈ (c.consumes.lookup step).getD [] → a ∉ ROOT_INPUTS →
        c.produces.lookup a = none) →
      stepGateCheck c skill step sid false st = none) := by
  constructor
  · intro a p hnone hmem
    obtain ⟨_, _, hl, _, _⟩ := missingDeps_mem.mp hmem
    rw [hnone] at hl
    cases hl
  · intro hall
    rw [stepGateCheck_eq c skill step sid st visited hspan]
    split_ifs with h1 h2 h3
    · rfl
    · rfl
    · rfl
    · exfalso
      apply h3
      rw [List.eq_nil_iff_forall_not_mem]
      rintro ⟨a, p⟩ hmem
      obtain ⟨ha, har, hl, _, _⟩ := missingDeps_mem.mp hmem
      rw [hall a ha har] at hl
      cases hl

/-- C10, witness at a concrete input: `decide` consumes an artifact
with no declared producer; the gate allows. -/
theorem claim_C10_witness :
    getSpanSteps "P" (some "s") false
      ⟨[⟨0, "P", none, Status.active, "SKILL", "SKILL", ["SKILL"], some "s", 0, none, none⟩],
       [], 1⟩ = some ["SKILL"] ∧
    (∀ a p, (Contract.produces ⟨[], [("decide", ["mystery"])], []⟩).lookup a = none →
      (a, p) ∉ missingDeps ⟨[], [("decide", ["mystery"])], []⟩
        (((Contract.consumes ⟨[], [("decide", ["mystery"])], []⟩).lookup "decide").getD [])
        ["SKILL"]) ∧
    stepGateCheck ⟨[], [("decide", ["mystery"])], []⟩ "P" "decide" (some "s") false
      ⟨[⟨0, "P", none, Status.active, "SKILL", "SKILL", ["SKILL"], some "s", 0, none, none⟩],
       [], 1⟩ = none :=
  ⟨by decide,
   (claim_C10_theorem ⟨[], [("decide", ["mystery"])], []⟩ "P" "decide" (some "s")
     ⟨[⟨0, "P", none, Status.active, "SKILL", "SKILL", ["SKILL"], some "s", 0, none, none⟩],
      [], 1⟩ ["SKILL"] (by decide)).1,
   (claim_C10_theorem ⟨[], [("decide", ["mystery"])], []⟩ "P" "decide" (some "s")
     ⟨[⟨0, "P", none, Status.active, "SKILL", "SKILL", ["SKILL"], some "s", 0, none, none⟩],
      [], 1⟩ ["SKILL"] (by decide)).2 (by decide)⟩

/-! ### C5 -/

/-- C5: the gate fails open. On a storage error it allows regardless
of the store; with no storage error and no active span in scope it
also allows; in both cases the decision is the same and the store is
left unchanged (the gate only reads). -/
theorem claim_C5_theorem (c : Contract) (skill step : String) (sid : Option String)
    (st : Store) :
    stepGateCheckRun c skill step sid true st = (none, st) ∧
    (latestSpan (activeMatch skill sid) st.spans = none →
      stepGateCheckRun c skill step sid false st = (none, st) ∧
      (stepGateCheckRun c skill step sid false st).1 =
        (stepGateCheckRun c skill step sid true st).1) := by
  have herr : getSpanSteps skill sid true st = none := rfl
  have h1 : stepGateCheck c skill step sid true st = none :=
    stepGateCheck_none_of_steps_none c skill step sid true st herr
  constructor
  · unfold stepGateCheckRun
    rw [h1]
  · intro hnone
    have hsteps : getSpanSteps skill sid false st = none := by
      unfold getSpanSteps
      rw [hnone]
      rfl
    have h2 : stepGateCheck c skill step sid false st = none :=
      stepGateCheck_none_of_steps_none c skill step sid false st hsteps
    constructor
    · unfold stepGateCheckRun
      rw [h2]
    · unfold stepGateCheckRun
      rw [h1, h2]

/-- C5, witness at a concrete input: a store with no active span for
the scope. -/
theorem claim_C5_witness :
    stepGateCheckRun ⟨[("facts", "gather")], [("decide", ["facts"])], []⟩ "P" "decide"
      (some "s") true ⟨[], [], 0⟩ = (none, ⟨[], [], 0⟩) ∧
    latestSpan (activeMatch "P" (some "s")) (⟨[], [], 0⟩ : Store).spans = none ∧
    (stepGateCheckRun ⟨[("facts", "gather")], [("decide", ["facts"])], []⟩ "P" "decide"
        (some "s") false ⟨[], [], 0⟩ = (none, ⟨[], [], 0⟩) ∧
     (stepGateCheckRun ⟨[("facts", "gather")], [("decide", ["facts"])], []⟩ "P" "decide"
        (some "s") false ⟨[], [], 0⟩).1 =
       (stepGateCheckRun ⟨[("facts", "gather")], [("decide", ["facts"])], []⟩ "P" "decide"
        (some "s") true ⟨[], [], 0⟩).1) :=
  ⟨(claim_C5_theorem ⟨[("facts", "gather")], [("decide", ["facts"])], []⟩ "P" "decide"
      (some "s") ⟨[], [], 0⟩).1,
   by decide,
   (claim_C5_theorem ⟨[("facts", "gather")], [("decide", ["facts"])], []⟩ "P" "decide"
      (some "s") ⟨[], [], 0⟩).2 (by decide)⟩
